import Mathlib

/-!
Verification of the transaction rules engine and its asynchronous
validation pipeline: a shallow embedding of the JavaScript sources
(`src/rules-engine/rule-processor.js`, `src/server.js` and the AI
validation agent) into Lean 4, followed by theorems about the embedded
functions.

Modelling conventions:
* JavaScript values are embedded as the inductive `JSValue`; numbers are
  rationals (IEEE-754 rounding, `NaN` payloads and `Infinity` literals are
  not modelled; `NaN`-producing coercions are modelled with `Option ℚ`,
  `none` standing for `NaN`).
* Functions that can throw return `Except String α`; the string is the
  thrown message.
* Wall-clock reads (`Date.now()`, `new Date().toISOString()`, `uuidv4()`)
  are passed in as explicit parameters or omitted when no claim mentions
  them.
-/

namespace Vibe

/-- A JavaScript value: `undefined`, `null`, booleans, numbers, strings,
arrays, and plain objects (assoc lists of own enumerable properties,
first binding wins, mirroring the uniqueness of JS object keys). -/
inductive JSValue where
  | undef
  | null
  | bool (b : Bool)
  | num (q : ℚ)
  | str (s : String)
  | arr (elems : List JSValue)
  | obj (fields : List (String × JSValue))

/-- JS truthiness: `undefined`, `null`, `false`, `0`, `""` are falsy;
every object and array is truthy. -/
def jsTruthy : JSValue → Bool
  | .undef => false
  | .null => false
  | .bool b => b
  | .num q => q != 0
  | .str s => s != ""
  | .arr _ => true
  | .obj _ => true

/-- JS strict equality `===`.  On primitives it is value equality without
coercion.  On arrays and objects JS compares references; a rule's literal
`value` and a transaction's field never alias, so two composite values
are modelled as never strictly equal. -/
def jsStrictEq : JSValue → JSValue → Bool
  | .undef, .undef => true
  | .null, .null => true
  | .bool a, .bool b => a == b
  | .num a, .num b => a == b
  | .str a, .str b => a == b
  | _, _ => false

/-- Decimal digits of the fractional part `r / d` (up to `fuel` digits;
JavaScript prints the shortest round-tripping decimal, which agrees with
this expansion on the terminating decimals the sources produce). -/
def fracDigits : ℕ → ℕ → ℕ → List Char
  | 0, _, _ => []
  | _, 0, _ => []
  | fuel + 1, r, d => Nat.digitChar (r * 10 / d) :: fracDigits fuel (r * 10 % d) d

/-- `String(n)` for a number. -/
def numToString (q : ℚ) : String :=
  let sign := if q.num < 0 then "-" else ""
  let a := q.num.natAbs
  if q.den = 1 then sign ++ toString a
  else sign ++ toString (a / q.den) ++ "." ++ String.mk (fracDigits 17 (a % q.den) q.den)

mutual

/-- `String(v)` coercion.  Arrays stringify by joining their elements with
commas, `null`/`undefined` elements becoming empty (Array.prototype.join);
plain objects become `[object Object]`. -/
def jsToString : JSValue → String
  | .undef => "undefined"
  | .null => "null"
  | .bool true => "true"
  | .bool false => "false"
  | .num q => numToString q
  | .str s => s
  | .arr xs => String.intercalate "," (jsToStringElems xs)
  | .obj _ => "[object Object]"

/-- Element renderings used by `Array.prototype.join`. -/
def jsToStringElems : List JSValue → List String
  | [] => []
  | .undef :: xs => "" :: jsToStringElems xs
  | .null :: xs => "" :: jsToStringElems xs
  | x :: xs => jsToString x :: jsToStringElems xs

end

/-- Numeric value of a digit list (most significant first). -/
def digitsToNat (ds : List Char) : ℕ :=
  ds.foldl (fun n c => n * 10 + (c.toNat - 48)) 0

/-- Exponent part after the `e`: optional sign then digits; a malformed
exponent contributes nothing (as with `parseFloat("1e")`). -/
def parseExpPart (cs : List Char) : ℤ :=
  let (neg, cs2) :=
    match cs with
    | '-' :: r => (true, r)
    | '+' :: r => (false, r)
    | _ => (false, cs)
  let ds := cs2.takeWhile Char.isDigit
  if ds.isEmpty then 0
  else if neg then -(digitsToNat ds : ℤ) else (digitsToNat ds : ℤ)

/-- Decimal number after an optional sign: integer digits, optional
fraction, optional exponent.  Returns the value and the unconsumed rest;
`none` when no digit is present. -/
def parseDecimal (cs : List Char) : Option (ℚ × List Char) :=
  let intd := cs.takeWhile Char.isDigit
  let cs2 := cs.dropWhile Char.isDigit
  let (fracd, cs3) :=
    match cs2 with
    | '.' :: rest => (rest.takeWhile Char.isDigit, rest.dropWhile Char.isDigit)
    | _ => ([], cs2)
  if intd.isEmpty ∧ fracd.isEmpty then none
  else
    let mantissa : ℚ := (digitsToNat intd : ℚ) + (digitsToNat fracd : ℚ) / ((10 : ℚ) ^ fracd.length)
    match cs3 with
    | 'e' :: rest => some (mantissa * (10 : ℚ) ^ parseExpPart rest, rest)
    | 'E' :: rest => some (mantissa * (10 : ℚ) ^ parseExpPart rest, rest)
    | _ => some (mantissa, cs3)

/-- `parseFloat` on a string: skip leading whitespace, optional sign,
then the longest numeric prefix; `none` is `NaN`.  (`Infinity` and hex
literals are not modelled; the sources never feed them in.) -/
def parseFloatChars (cs : List Char) : Option ℚ :=
  let cs1 := cs.dropWhile (fun c => c == ' ' || c == '\t' || c == '\n' || c == '\r')
  let (neg, cs2) :=
    match cs1 with
    | '-' :: r => (true, r)
    | '+' :: r => (false, r)
    | _ => (false, cs1)
  match parseDecimal cs2 with
  | some (q, _) => some (if neg then -q else q)
  | none => none

/-- `parseFloat(v)`: a number passes through, anything else is coerced to
a string first. -/
def parseFloatJS (v : JSValue) : Option ℚ :=
  match v with
  | .num q => some q
  | v => parseFloatChars (jsToString v).data

/-- `Number("...")`: whole-string parse; whitespace-only is `0`. -/
def numberFromString (s : String) : Option ℚ :=
  let cs := s.data.dropWhile (fun c => c == ' ' || c == '\t' || c == '\n' || c == '\r')
  let cs := (cs.reverse.dropWhile (fun c => c == ' ' || c == '\t' || c == '\n' || c == '\r')).reverse
  if cs.isEmpty then some 0
  else
    let (neg, cs2) :=
      match cs with
      | '-' :: r => (true, r)
      | '+' :: r => (false, r)
      | _ => (false, cs)
    match parseDecimal cs2 with
    | some (q, []) => some (if neg then -q else q)
    | _ => none

/-- `Number(v)` coercion (`ToNumber`); `none` is `NaN`.  Arrays and
objects go through their string form, matching `ToPrimitive`. -/
def toNumberJS : JSValue → Option ℚ
  | .undef => none
  | .null => some 0
  | .bool b => some (if b then 1 else 0)
  | .num q => some q
  | .str s => numberFromString s
  | v => numberFromString (jsToString v)

/-- The dot-separated components of a field path (lodash `_.get` path
strings; the bracket/quote syntax of lodash paths is not used by the
sources and is not modelled). -/
def splitPathAux : List Char → List Char → List String
  | [], acc => [String.mk acc.reverse]
  | '.' :: rest, acc => String.mk acc.reverse :: splitPathAux rest []
  | c :: rest, acc => splitPathAux rest (c :: acc)

/-- Path components of a dot-path string. -/
def toPath (field : String) : List String := splitPathAux field.data []

/-- A path key used as an array index: digits only. -/
def keyToIndex (k : String) : Option ℕ :=
  if k.data ≠ [] ∧ k.data.all Char.isDigit then some (digitsToNat k.data) else none

/-- Traversal for `_.get`: follow each key through objects (and numeric
keys through arrays); any miss — including a missing intermediate key or
a primitive on the way — yields `undefined`, never an error. -/
def getPath : List String → JSValue → JSValue
  | [], v => v
  | k :: ks, .obj fs =>
      match fs.lookup k with
      | some w => getPath ks w
      | none => .undef
  | k :: ks, .arr xs =>
      match keyToIndex k with
      | some i =>
          match xs.get? i with
          | some w => getPath ks w
          | none => .undef
      | none => .undef
  | _, _ => (.undef)

/-- `RuleProcessor.getFieldValue(field, context)`: lodash `_.get` with a
dot-path. -/
def getFieldValue (field : String) (context : JSValue) : JSValue :=
  getPath (toPath field) context

/-- Plain property read `o.k` where the receiver is known to be neither
`undefined` nor `null`; on primitives it yields `undefined` (no
prototype-chain properties are modelled). -/
def objGet (k : String) (o : JSValue) : JSValue :=
  match o with
  | .obj fs => (fs.lookup k).getD .undef
  | .arr xs =>
      match keyToIndex k with
      | some i => (xs.get? i).getD .undef
      | none => .undef
  | _ => (.undef)

/-- Property read `o.k` as it can throw: reading from `undefined` or
`null` raises a `TypeError`. -/
def jsGetProp (o : JSValue) (k : String) : Except String JSValue :=
  match o with
  | .undef => .error ("Cannot read properties of undefined (reading " ++ k ++ ")")
  | .null => .error ("Cannot read properties of null (reading " ++ k ++ ")")
  | o => .ok (objGet k o)

/-- Property assignment `o[k] = v` on an object's field list: overwrite in
place when the key exists (JS keeps the original insertion position),
otherwise append. -/
def setKey (k : String) (v : JSValue) : List (String × JSValue) → List (String × JSValue)
  | [] => [(k, v)]
  | (k2, v2) :: fs => if k2 = k then (k2, v) :: fs else (k2, v2) :: setKey k v fs

/-- `{...o, k: v}`: spread the receiver's fields (a primitive spreads to
nothing) and set one key. -/
def withKey (k : String) (v : JSValue) (o : JSValue) : JSValue :=
  match o with
  | .obj fs => .obj (setKey k v fs)
  | _ => .obj (setKey k v [])

/-- Case-insensitive form of a string (`String.prototype.toLowerCase`,
simple mapping). -/
def lowerChars (s : String) : List Char := s.data.map Char.toLower

/-- Substring test on char lists (`String.prototype.includes`). -/
def charsContain (hay need : List Char) : Bool :=
  match hay with
  | [] => need.isEmpty
  | _ :: rest => need.isPrefixOf hay || charsContain rest need

/-- `is_empty` semantics from the operator registry:
`!a || a === '' || (Array.isArray(a) && a.length === 0)`. -/
def jsIsEmpty (a : JSValue) : Bool :=
  !jsTruthy a || jsStrictEq a (.str "") ||
    (match a with
     | .arr xs => xs.isEmpty
     | _ => false)

/-- Calendar value used by the `date_*` operators; `moment(v)` parsing is
reduced to numeric timestamps and `YYYY-MM-DD` strings (an ordinal
day count); anything else is an invalid date (`none`), which compares
false, the way an invalid moment does. -/
def dateValue : JSValue → Option ℚ
  | .num q => some q
  | .str s =>
      match s.data with
      | [y1, y2, y3, y4, '-', m1, m2, '-', d1, d2] =>
          if [y1, y2, y3, y4, m1, m2, d1, d2].all Char.isDigit then
            some ((digitsToNat [y1, y2, y3, y4] * 10000 +
                   digitsToNat [m1, m2] * 100 + digitsToNat [d1, d2] : ℕ) : ℚ)
          else none
      | _ => none
  | _ => none

/-- The fixed operator registry `RuleProcessor.operators`: the recognized
operator ids and their two-argument semantics. -/
def operators (op : String) : Option (JSValue → JSValue → Bool) :=
  match op with
  | "equals" => some (fun a b => jsStrictEq a b)
  | "not_equals" => some (fun a b => !jsStrictEq a b)
  | "greater_than" => some (fun a b =>
      match parseFloatJS a, parseFloatJS b with
      | some x, some y => decide (x > y)
      | _, _ => false)
  | "less_than" => some (fun a b =>
      match parseFloatJS a, parseFloatJS b with
      | some x, some y => decide (x < y)
      | _, _ => false)
  | "greater_than_or_equal" => some (fun a b =>
      match parseFloatJS a, parseFloatJS b with
      | some x, some y => decide (x ≥ y)
      | _, _ => false)
  | "less_than_or_equal" => some (fun a b =>
      match parseFloatJS a, parseFloatJS b with
      | some x, some y => decide (x ≤ y)
      | _, _ => false)
  | "contains" => some (fun a b => charsContain (lowerChars (jsToString a)) (lowerChars (jsToString b)))
  | "not_contains" => some (fun a b => !charsContain (lowerChars (jsToString a)) (lowerChars (jsToString b)))
  | "in" => some (fun a b =>
      match b with
      | .arr xs => xs.any (fun x => jsStrictEq x a)
      | _ => false)
  | "not_in" => some (fun a b =>
      match b with
      | .arr xs => !xs.any (fun x => jsStrictEq x a)
      | _ => true)
  | "starts_with" => some (fun a b => (lowerChars (jsToString b)).isPrefixOf (lowerChars (jsToString a)))
  | "ends_with" => some (fun a b => (lowerChars (jsToString b)).isSuffixOf (lowerChars (jsToString a)))
  | "is_empty" => some (fun a _ => jsIsEmpty a)
  | "is_not_empty" => some (fun a _ => !jsIsEmpty a)
  | "date_before" => some (fun a b =>
      match dateValue a, dateValue b with
      | some x, some y => decide (x < y)
      | _, _ => false)
  | "date_after" => some (fun a b =>
      match dateValue a, dateValue b with
      | some x, some y => decide (x > y)
      | _, _ => false)
  | "date_between" => some (fun a b =>
      match dateValue a, dateValue (objGet "start" b), dateValue (objGet "end" b) with
      | some x, some lo, some hi => decide (lo ≤ x ∧ x ≤ hi)
      | _, _, _ => false)
  | _ => none

/-- A condition tree: the `and`/`or`/`not` combinators of
`parseCondition` plus field/operator/value leaves. -/
inductive Condition where
  | and (children : List Condition)
  | or (children : List Condition)
  | not (child : Condition)
  | leaf (field : String) (operator : String) (value : JSValue)

/-- Leaf evaluation in `parseCondition`: a missing (empty) field or
operator throws, an unregistered operator throws, otherwise the operator
is applied to the looked-up field value and the literal. -/
def evalLeaf (field operator : String) (value : JSValue) (context : JSValue) :
    Except String Bool :=
  if field = "" ∨ operator = "" then
    .error "Condition must have field and operator"
  else
    match operators operator with
    | none => .error ("Unsupported operator: " ++ operator)
    | some f => .ok (f (getFieldValue field context) value)

mutual

/-- `RuleProcessor.parseCondition(condition, context)`:
`and` is `Array.prototype.every` (stop at the first false), `or` is
`Array.prototype.some` (stop at the first true), `not` negates; a thrown
error propagates. -/
def evalCond : Condition → JSValue → Except String Bool
  | .and cs, context => evalEvery cs context
  | .or cs, context => evalSome cs context
  | .not c, context =>
      match evalCond c context with
      | .error e => .error e
      | .ok b => .ok (!b)
  | .leaf f op v, context => evalLeaf f op v context

/-- `children.every(sub => parseCondition(sub, context))`. -/
def evalEvery : List Condition → JSValue → Except String Bool
  | [], _ => .ok true
  | c :: cs, context =>
      match evalCond c context with
      | .error e => .error e
      | .ok false => .ok false
      | .ok true => evalEvery cs context

/-- `children.some(sub => parseCondition(sub, context))`. -/
def evalSome : List Condition → JSValue → Except String Bool
  | [], _ => .ok false
  | c :: cs, context =>
      match evalCond c context with
      | .error e => .error e
      | .ok true => .ok true
      | .ok false => evalSome cs context

end

/-! ## Action execution (`RuleProcessor.executeAction` and helpers) -/

/-- A rule action: a type tag and a configuration object. -/
structure Action where
  type : String
  config : JSValue

/-- The result object a successful action handler returns. -/
inductive ActionOutcome where
  | flagged (reason : JSValue)
  | notification (recipient : JSValue) (message : String)
  | score (score : Option ℚ) (threshold : JSValue)
  | logged (event : JSValue) (data : JSValue)
  | rejected (reason : JSValue)

/-- One step of `interpolateMessage`'s global regex replace
`/\x7b([^\x7d]+)\x7d/g`: scan the template; an opening brace starts a
field buffer (`some buf`, most recent char first); a closing brace with a
non-empty buffer is a placeholder match, replaced by the field's value
when that value is truthy and kept verbatim otherwise (the callback
returns `getFieldValue(field, data) || match`); a closing brace with an
empty buffer or an unterminated opening brace stays verbatim, exactly as
the regex finds no match there. -/
def interpGo (data : JSValue) : List Char → Option (List Char) → List Char
  | [], none => []
  | [], some buf => '{' :: buf.reverse
  | c :: rest, none =>
      if c = '{' then interpGo data rest (some [])
      else c :: interpGo data rest none
  | c :: rest, some buf =>
      if c = '}' then
        match buf.reverse with
        | [] => '{' :: '}' :: interpGo data rest none
        | f :: fs =>
            let v := getFieldValue (String.mk (f :: fs)) data
            (if jsTruthy v then (jsToString v).data else '{' :: ((f :: fs) ++ ['}'])) ++
              interpGo data rest none
      else interpGo data rest (some (c :: buf))

/-- `RuleProcessor.interpolateMessage(template, data)`. -/
def interpolateMessage (template : String) (data : JSValue) : String :=
  String.mk (interpGo data template.data none)

/-- `NaN`-propagating addition (`none` is `NaN`). -/
def addOpt (a b : Option ℚ) : Option ℚ :=
  match a, b with
  | some x, some y => some (x + y)
  | _, _ => none

/-- JS `*` with `ToNumber` coercion of both operands. -/
def jsMul (a b : JSValue) : Option ℚ :=
  match toNumberJS a, toNumberJS b with
  | some x, some y => some (x * y)
  | _, _ => none

/-- JS `>=` as used on `fieldValue >= range.min`: both operands strings
compare lexicographically, otherwise numerically via `ToNumber`, `NaN`
comparing false. -/
def jsGE (a b : JSValue) : Bool :=
  match a, b with
  | .str x, .str y => !decide (x < y)
  | _, _ =>
      match toNumberJS a, toNumberJS b with
      | some x, some y => decide (y ≤ x)
      | _, _ => false

/-- JS `<=`, same coercions as `jsGE`. -/
def jsLE (a b : JSValue) : Bool :=
  match a, b with
  | .str x, .str y => !decide (y < x)
  | _, _ =>
      match toNumberJS a, toNumberJS b with
      | some x, some y => decide (x ≤ y)
      | _, _ => false

/-- Inner loop of `calculateRiskScore`: find the first range whose
inclusive `[min, max]` bounds contain the field value and contribute
`points * weight`; no match contributes `0`. -/
def rangeLoop (fieldValue weight : JSValue) : List JSValue → Except String (Option ℚ)
  | [] => .ok (some 0)
  | r :: rest => do
      let mn ← jsGetProp r "min"
      if jsGE fieldValue mn then do
        let mx ← jsGetProp r "max"
        if jsLE fieldValue mx then do
          let pts ← jsGetProp r "points"
          pure (jsMul pts weight)
        else rangeLoop fieldValue weight rest
      else rangeLoop fieldValue weight rest

/-- Outer loop of `calculateRiskScore` over `config.factors`: read each
factor's `field` (looked up in the transaction), `weight` (defaulting to
`1` when falsy) and `ranges` (skipped when falsy), accumulating the
score. -/
def factorLoop (transactionData : JSValue) : List JSValue → Option ℚ → Except String (Option ℚ)
  | [], score => .ok score
  | f :: fs, score => do
      let fieldv ← jsGetProp f "field"
      let fieldValue :=
        match fieldv with
        | .str s => getFieldValue s transactionData
        | _ => .undef
      let wv ← jsGetProp f "weight"
      let weight := if jsTruthy wv then wv else .num 1
      let rv ← jsGetProp f "ranges"
      let contrib ←
        if jsTruthy rv then
          match rv with
          | .arr rs => rangeLoop fieldValue weight rs
          | _ => .error "factor.ranges is not iterable"
        else pure (some 0)
      factorLoop transactionData fs (addOpt score contrib)

/-- `RuleProcessor.calculateRiskScore(config, transactionData)`: the
weighted-bucket sum over `config.factors || []`, clamped to `[0, 100]`
(`Math.min(Math.max(score, 0), 100)`; `NaN` stays `NaN`). -/
def calculateRiskScore (config transactionData : JSValue) : Except String (Option ℚ) := do
  let fv ← jsGetProp config "factors"
  let factors := if jsTruthy fv then fv else .arr []
  match factors with
  | .arr fs => do
      let score ← factorLoop transactionData fs (some 0)
      pure (score.map (fun q => min (max q 0) 100))
  | _ => .error "config.factors is not iterable"

/-- `RuleProcessor.executeAction(action, transactionData)`: the fixed
dispatch on `action.type`; an unknown type throws. -/
def executeAction (action : Action) (transactionData : JSValue) : Except String ActionOutcome :=
  match action.type with
  | "flag_transaction" => do
      let reason ← jsGetProp action.config "reason"
      pure (.flagged reason)
  | "send_notification" => do
      let recipient ← jsGetProp action.config "recipient"
      let msg ← jsGetProp action.config "message"
      match msg with
      | .str template => pure (.notification recipient (interpolateMessage template transactionData))
      | .undef => .error "Cannot read properties of undefined (reading replace)"
      | .null => .error "Cannot read properties of null (reading replace)"
      | _ => .error "template.replace is not a function"
  | "calculate_score" => do
      let s ← calculateRiskScore action.config transactionData
      let th ← jsGetProp action.config "threshold"
      pure (.score s th)
  | "log_event" => do
      let ev ← jsGetProp action.config "event"
      pure (.logged ev transactionData)
  | "reject_transaction" => do
      let reason ← jsGetProp action.config "reason"
      pure (.rejected reason)
  | t => .error ("Unknown action type: " ++ t)

/-- One element of the `executedActions` array built by
`executeActions`: the action's type and config together with either a
successful result or the caught error message. -/
structure ExecutedAction where
  type : String
  config : JSValue
  result : Option ActionOutcome
  success : Bool
  error : Option String

/-- The entry `executeActions` pushes for one action. -/
def executedEntry (a : Action) : Except String ActionOutcome → ExecutedAction
  | .ok r => { type := a.type, config := a.config, result := some r, success := true, error := none }
  | .error m => { type := a.type, config := a.config, result := none, success := false, error := some m }

/-- `RuleProcessor.executeActions(actions, transactionData)`: run every
action in order, catching each action's failure individually. -/
def executeActions : List Action → JSValue → List ExecutedAction
  | [], _ => []
  | a :: rest, transactionData =>
      executedEntry a (executeAction a transactionData) :: executeActions rest transactionData

/-! ## Rule evaluation (`RuleProcessor.evaluateRule` / `processTransaction`) -/

/-- A rule as stored in the rule set.  `enabled` is kept as a raw value
because `processTransaction` skips a rule only when it is strictly
`false`.  (`executionTime` bookkeeping comes from `Date.now()` and is not
modelled.) -/
structure Rule where
  id : JSValue
  name : JSValue
  enabled : JSValue
  conditions : Option Condition
  actions : List Action

/-- The per-rule result of `evaluateRule` (the wall-clock `executionTime`
and `timestamp` fields are not modelled). -/
structure RuleResult where
  ruleId : JSValue
  ruleName : JSValue
  result : Bool
  actions : List ExecutedAction
  error : Option String
  transactionId : JSValue

/-- `RuleProcessor.evaluateRule(rule, transactionData)`: evaluate the
conditions (falsy `conditions` leave `result` false); run the actions
only when the conditions passed; a thrown evaluation error is caught and
reported in the result's `error` field with no actions executed. -/
def evaluateRule (rule : Rule) (transactionData : JSValue) : RuleResult :=
  match rule.conditions with
  | none =>
      { ruleId := rule.id, ruleName := rule.name, result := false, actions := [],
        error := none, transactionId := objGet "id" transactionData }
  | some c =>
      match evalCond c transactionData with
      | .error e =>
          { ruleId := rule.id, ruleName := rule.name, result := false, actions := [],
            error := some e, transactionId := objGet "id" transactionData }
      | .ok b =>
          { ruleId := rule.id, ruleName := rule.name, result := b,
            actions := if b then executeActions rule.actions transactionData else [],
            error := none, transactionId := objGet "id" transactionData }

/-- JS truthiness of a result's `error` field (`null` and the empty
string are falsy). -/
def errTruthy : Option String → Bool
  | some m => m != ""
  | none => false

/-- The report `RuleProcessor.processTransaction` returns (its
`timestamp` is not modelled). -/
structure Report where
  transactionId : JSValue
  totalRules : ℕ
  passedRules : ℕ
  failedRules : ℕ
  errors : ℕ
  results : List RuleResult

/-- `RuleProcessor.processTransaction(rules, transactionData)`: evaluate
every rule whose `enabled` is not strictly `false`, in order, and count
passes, failures and errors. -/
def processTransaction (rules : List Rule) (transactionData : JSValue) : Report :=
  let results := (rules.filter (fun r => !jsStrictEq r.enabled (.bool false))).map
    (fun r => evaluateRule r transactionData)
  { transactionId := objGet "id" transactionData,
    totalRules := results.length,
    passedRules := (results.filter (fun r => r.result)).length,
    failedRules := (results.filter (fun r => !r.result)).length,
    errors := (results.filter (fun r => errTruthy r.error)).length,
    results := results }

/-! ## Transaction monitor (`server.js`, class `TransactionMonitor`) -/

/-- `Math.round(q)`: round half toward positive infinity. -/
def jsRound (q : ℚ) : ℤ := (q + 1 / 2).floor

/-- The score the summary reads off one executed action:
`action.result.score || 0` (a missing or `NaN` score, and score `0`
itself, all give `0`; `success` entries built by `executeActions` always
carry a result object, so the `none` fallback is never reached from the
execution path). -/
def scoreOf (a : ExecutedAction) : ℚ :=
  match a.result with
  | some (.score s _) => s.getD 0
  | _ => 0

/-- The filter both summary helpers apply to a rule's actions:
`a.type === 'calculate_score' && a.success`. -/
def isScoreAction (a : ExecutedAction) : Bool :=
  a.type == "calculate_score" && a.success

/-- `TransactionMonitor.calculateOverallRiskScore(triggeredRules)`:
accumulate `totalScore`/`scoreCount` over the successful
`calculate_score` actions of the triggered rules and return the rounded
average (`0` with no triggered rules or no score actions). -/
def calculateOverallRiskScore (triggeredRules : List RuleResult) : ℤ :=
  if triggeredRules.length = 0 then 0
  else
    let acc := triggeredRules.foldl
      (fun (p : ℚ × ℕ) rule =>
        (rule.actions.filter isScoreAction).foldl
          (fun (q : ℚ × ℕ) action => (q.1 + scoreOf action, q.2 + 1)) p)
      (0, 0)
    if acc.2 > 0 then jsRound (acc.1 / (acc.2 : ℚ)) else 0

/-- The flag filter of `createResultSummary`:
`r.actions.some(a => a.type === 'flag_transaction' && a.success)`. -/
def hasFlagAction (r : RuleResult) : Bool :=
  r.actions.any (fun a => a.type == "flag_transaction" && a.success)

/-- `TransactionMonitor.generateRecommendation(triggeredRules, flaggedRules)`. -/
def generateRecommendation (triggeredRules flaggedRules : List RuleResult) : String :=
  if flaggedRules.length > 0 then "REVIEW_REQUIRED"
  else if triggeredRules.length > 2 then "MONITOR_CLOSELY"
  else if triggeredRules.length > 0 then "NORMAL_MONITORING"
  else "APPROVED"

/-- The summary object `createResultSummary` returns. -/
structure Summary where
  totalRulesEvaluated : ℕ
  rulesTriggered : ℕ
  rulesFlagged : ℕ
  hasErrors : Bool
  riskScore : ℤ
  recommendation : String

/-- `TransactionMonitor.createResultSummary(ruleResults)`. -/
def createResultSummary (ruleResults : Report) : Summary :=
  let triggeredRules := ruleResults.results.filter (fun r => r.result)
  let flaggedRules := triggeredRules.filter hasFlagAction
  { totalRulesEvaluated := ruleResults.totalRules,
    rulesTriggered := triggeredRules.length,
    rulesFlagged := flaggedRules.length,
    hasErrors := ruleResults.errors > 0,
    riskScore := calculateOverallRiskScore triggeredRules,
    recommendation := generateRecommendation triggeredRules flaggedRules }

/-- `TransactionMonitor.isValidTransaction(transaction)`: the value is an
object carrying the keys `amount`, `userId` and `type`, and `amount` is a
non-negative number.  Only presence is checked for `userId` and `type`. -/
def isValidTransaction (transaction : JSValue) : Bool :=
  match transaction with
  | .obj fs =>
      (fs.lookup "amount").isSome && (fs.lookup "userId").isSome && (fs.lookup "type").isSome &&
        (match fs.lookup "amount" with
         | some (.num a) => decide (0 ≤ a)
         | _ => false)
  | _ => false

/-- `TransactionMonitor.enhanceTransaction(transaction)`: spread the
transaction and set `id` (kept when truthy, else a fresh uuid),
`timestamp` (kept when truthy, else now), `processedAt: null`,
`retryCount: 0`, `status: 'pending'` and the `metadata` object.  The
fresh uuid and the ISO timestamp are explicit parameters. -/
def enhanceTransaction (freshId nowIso : String) (transaction : JSValue) : JSValue :=
  let fs := match transaction with | .obj fields => fields | _ => []
  let idv := objGet "id" transaction
  let id2 := if jsTruthy idv then idv else .str freshId
  let tsv := objGet "timestamp" transaction
  let ts2 := if jsTruthy tsv then tsv else .str nowIso
  let metaBase : List (String × JSValue) :=
    [("receivedAt", .str nowIso), ("source", .str "ui"), ("version", .str "1.0")]
  let meta : JSValue :=
    match objGet "metadata" transaction with
    | .obj ms => .obj (ms.foldl (fun acc kv => setKey kv.1 kv.2 acc) metaBase)
    | _ => .obj metaBase
  .obj (setKey "metadata" meta
    (setKey "status" (.str "pending")
      (setKey "retryCount" (.num 0)
        (setKey "processedAt" .null
          (setKey "timestamp" ts2
            (setKey "id" id2 fs))))))

/-- `TransactionMonitor.monitorTransaction(transactionData)`: an invalid
document throws `Invalid transaction data provided` synchronously before
anything is queued; a valid one is enhanced, appended to the inbound
queue (`transactionQueue.push`), counted in `metrics.totalTransactions`,
and its id is returned. -/
def monitorTransaction (transactionQueue : List JSValue) (totalTransactions : ℕ)
    (freshId nowIso : String) (transactionData : JSValue) :
    Except String (JSValue × List JSValue × ℕ) :=
  if isValidTransaction transactionData then
    let e := enhanceTransaction freshId nowIso transactionData
    .ok (objGet "id" e, transactionQueue ++ [e], totalTransactions + 1)
  else
    .error "Invalid transaction data provided"

/-! ## Retry handling (`TransactionMonitor.handleTransactionError`) -/

/-- The pipeline configuration fields the retry path reads
(constructor defaults: `maxRetries: 3`, `retryDelay: 1000`). -/
structure MonitorConfig where
  maxRetries : ℕ
  retryDelay : ℕ

/-- The transaction state the retry path mutates. -/
structure TxnState where
  status : String
  retryCount : ℕ

/-- `handleTransactionError(transaction, error)`: increment `retryCount`
and set `status = 'failed'`; while `retryCount < maxRetries` flip the
status back to `'pending'` and schedule a re-insertion at the queue head
after `retryDelay * retryCount` ms (returned as the delay component);
otherwise keep the terminal `'failed'`, count the failure and emit the
`transaction_failed` event (the emitted flag). -/
def handleTransactionError (config : MonitorConfig) (t : TxnState) :
    TxnState × Option ℕ × Bool :=
  let rc := t.retryCount + 1
  if rc < config.maxRetries then
    ({ status := "pending", retryCount := rc }, some (config.retryDelay * rc), false)
  else
    ({ status := "failed", retryCount := rc }, none, true)

/-- What one attempt of a transaction whose evaluation always throws
records: the statuses assigned in order (`processTransaction` sets
`'processing'`, the error handler sets `'failed'` and, on a scheduled
retry, `'pending'`), the scheduled requeue delay, and whether the
terminal failure event was emitted. -/
structure AttemptRecord where
  statuses : List String
  requeueDelay : Option ℕ
  failureEmitted : Bool
deriving DecidableEq

/-- One processing attempt of an always-throwing transaction. -/
def failingAttempt (config : MonitorConfig) (t : TxnState) : TxnState × AttemptRecord :=
  let (t2, delay, emitted) := handleTransactionError config t
  (t2, { statuses := "processing" :: "failed" :: (if delay.isSome then ["pending"] else []),
         requeueDelay := delay, failureEmitted := emitted })

/-- The retry callback: `transactionQueue.unshift(transaction)` puts the
transaction back at the head of the inbound queue. -/
def retryRequeue (t : TxnState) (queue : List TxnState) : List TxnState := t :: queue

/-- Drive an always-throwing transaction through the pipeline: take the
queue head, attempt it, and requeue it at the head when a retry was
scheduled; `fuel` bounds the number of attempts observed. -/
def runFailing (config : MonitorConfig) : ℕ → List TxnState → List AttemptRecord
  | 0, _ => []
  | fuel + 1, queue =>
      match queue with
      | [] => []
      | t :: rest =>
          let (t2, r) := failingAttempt config t
          r :: runFailing config fuel
            (match r.requeueDelay with
             | some _ => retryRequeue t2 rest
             | none => rest)

/-! ## AI validation agent (`AIValidationAgent`) -/

/-- `slice(-n)`: the `n` most recent entries (everything when fewer). -/
def lastN (n : ℕ) (l : List α) : List α := l.drop (l.length - n)

/-- The history entry `handleValidationResult` pushes: the validation
object with `status: 'completed'` and the result object under `result`
(`passed` lives inside that nested result, not at the top level). -/
def completedEntry (validation result : JSValue) : JSValue :=
  withKey "result" result (withKey "status" (.str "completed") validation)

/-- The trim step `if (this.validationHistory.length > 1000)
this.validationHistory = this.validationHistory.slice(-1000)`. -/
def trimHistory (h : List JSValue) : List JSValue :=
  if h.length > 1000 then lastN 1000 h else h

/-- `AIValidationAgent.handleValidationResult`'s effect on
`validationHistory`: push the completed entry, then trim to the 1000
most recent when the cap is exceeded. -/
def handleValidationResult (validationHistory : List JSValue) (validation result : JSValue) :
    List JSValue :=
  trimHistory (validationHistory ++ [completedEntry validation result])

/-- The history entry `handleValidationError` pushes: the validation
object with `status: 'failed'` and the error message. -/
def failedEntry (validation : JSValue) (errMessage : String) : JSValue :=
  withKey "error" (.str errMessage) (withKey "status" (.str "failed") validation)

/-- `AIValidationAgent.handleValidationError`'s effect on
`validationHistory`: push the failed entry.  No trimming happens on this
path. -/
def handleValidationError (validationHistory : List JSValue) (validation : JSValue)
    (errMessage : String) : List JSValue :=
  validationHistory ++ [failedEntry validation errMessage]

/-- The constructor default
`validationPatterns.performance.errorRateThreshold = 0.05`. -/
def errorRateThresholdDefault : ℚ := 5 / 100

/-- The anomaly record `detectAnomalies` appends and emits. -/
structure AnomalyRecord where
  type : String
  errorRate : ℚ
  threshold : ℚ
deriving DecidableEq

/-- `AIValidationAgent.detectAnomalies()`: over the 100 most recent
history entries (skip entirely when fewer than 10 are available), count
the entries whose top-level `passed` property is falsy
(`filter(v => !v.passed)`), and raise a `high_error_rate` anomaly exactly
when that fraction strictly exceeds the threshold.  `some` stands for
the appended record plus the emitted `anomaly_detected` event. -/
def detectAnomalies (validationHistory : List JSValue) (threshold : ℚ) :
    Option AnomalyRecord :=
  let recentValidations := lastN 100 validationHistory
  if recentValidations.length < 10 then none
  else
    let errorRate : ℚ :=
      ((recentValidations.filter (fun v => !jsTruthy (objGet "passed" v))).length : ℚ) /
        (recentValidations.length : ℚ)
    if errorRate > threshold then
      some { type := "high_error_rate", errorRate := errorRate, threshold := threshold }
    else none

/-! ## Rule-logic complexity (`AIValidationAgent.calculateConditionComplexity`) -/

mutual

/-- `AIValidationAgent.calculateConditionComplexity(conditions, depth)`
on a present condition node: every node contributes its own depth;
`and`/`or` recurse into each child at `depth + 1`; `not` recurses at
`depth + 1` and adds one; a leaf adds one. -/
def calculateConditionComplexity : Condition → ℕ → ℕ
  | .and cs, depth => depth + complexityChildren cs (depth + 1)
  | .or cs, depth => depth + complexityChildren cs (depth + 1)
  | .not c, depth => depth + (calculateConditionComplexity c (depth + 1) + 1)
  | .leaf _ _ _, depth => depth + 1

/-- The `reduce` over an `and`/`or` node's children. -/
def complexityChildren : List Condition → ℕ → ℕ
  | [], _ => 0
  | c :: cs, depth => calculateConditionComplexity c depth + complexityChildren cs depth

end

/-- Complexity of a rule's possibly-missing condition tree
(`calculateConditionComplexity` returns `0` on a falsy argument). -/
def ruleConditionComplexity : Option Condition → ℕ
  | none => 0
  | some c => calculateConditionComplexity c 0

/-- The complexity check in `AIValidationAgent.analyzeRuleLogic`: an
issue of type `complexity` is pushed exactly when
`calculateConditionComplexity(rule.conditions) > 10`. -/
def analyzeRuleLogicFlagsComplexity (rule : Rule) : Bool :=
  ruleConditionComplexity rule.conditions > 10

/-! ## Spec-side views used to state the claims -/

mutual

/-- Sum of every node's nesting depth in a condition tree (root at the
given depth, children one deeper): the closed form of the depth
contributions inside `calculateConditionComplexity`. -/
def depthSumAllNodes : Condition → ℕ → ℕ
  | .and cs, depth => depth + depthSumChildren cs (depth + 1)
  | .or cs, depth => depth + depthSumChildren cs (depth + 1)
  | .not c, depth => depth + depthSumAllNodes c (depth + 1)
  | .leaf _ _ _, depth => depth

/-- Depth sum over a child list. -/
def depthSumChildren : List Condition → ℕ → ℕ
  | [], _ => 0
  | c :: cs, depth => depthSumAllNodes c depth + depthSumChildren cs depth

end

mutual

/-- Number of leaves of a condition tree. -/
def leafCount : Condition → ℕ
  | .and cs => leafCountChildren cs
  | .or cs => leafCountChildren cs
  | .not c => leafCount c
  | .leaf _ _ _ => 1

/-- Leaf count over a child list. -/
def leafCountChildren : List Condition → ℕ
  | [] => 0
  | c :: cs => leafCount c + leafCountChildren cs

end

mutual

/-- Number of `not` nodes of a condition tree. -/
def notNodeCount : Condition → ℕ
  | .and cs => notNodeCountChildren cs
  | .or cs => notNodeCountChildren cs
  | .not c => notNodeCount c + 1
  | .leaf _ _ _ => 0

/-- `not` count over a child list. -/
def notNodeCountChildren : List Condition → ℕ
  | [] => 0
  | c :: cs => notNodeCount c + notNodeCountChildren cs

end

mutual

/-- Sum over the leaves of a condition tree of `nesting depth + 1` (root
at the given depth).  Together with `notNodeCount` this is the complexity
formula claim C9 states, written from the claim's words for comparison
with the source's `calculateConditionComplexity`. -/
def leafDepthSum : Condition → ℕ → ℕ
  | .and cs, depth => leafDepthSumChildren cs (depth + 1)
  | .or cs, depth => leafDepthSumChildren cs (depth + 1)
  | .not c, depth => leafDepthSum c (depth + 1)
  | .leaf _ _ _, depth => depth + 1

/-- Leaf-depth sum over a child list. -/
def leafDepthSumChildren : List Condition → ℕ → ℕ
  | [], _ => 0
  | c :: cs, depth => leafDepthSum c depth + leafDepthSumChildren cs depth

end

/-- The complexity claim C9 attributes to the analyzer: sum over leaves
of `depth + 1`, plus one per `not` node. -/
def claimedComplexity (c : Condition) : ℕ := leafDepthSum c 0 + notNodeCount c

mutual

/-- `calculateConditionComplexity` in closed form: the sum of every
node's depth, plus one per leaf, plus one per `not` node. -/
theorem calculateConditionComplexity_closed (c : Condition) (depth : ℕ) :
    calculateConditionComplexity c depth =
      depthSumAllNodes c depth + leafCount c + notNodeCount c := by
  cases c with
  | and cs =>
      simp [calculateConditionComplexity, depthSumAllNodes, leafCount, notNodeCount,
        complexityChildren_closed cs (depth + 1)]
      ring
  | or cs =>
      simp [calculateConditionComplexity, depthSumAllNodes, leafCount, notNodeCount,
        complexityChildren_closed cs (depth + 1)]
      ring
  | not c =>
      simp [calculateConditionComplexity, depthSumAllNodes, leafCount, notNodeCount,
        calculateConditionComplexity_closed c (depth + 1)]
      ring
  | leaf f op v =>
      simp [calculateConditionComplexity, depthSumAllNodes, leafCount, notNodeCount]

/-- Closed form of the children `reduce`. -/
theorem complexityChildren_closed (cs : List Condition) (depth : ℕ) :
    complexityChildren cs depth =
      depthSumChildren cs depth + leafCountChildren cs + notNodeCountChildren cs := by
  cases cs with
  | nil =>
      simp [complexityChildren, depthSumChildren, leafCountChildren, notNodeCountChildren]
  | cons c cs =>
      simp [complexityChildren, depthSumChildren, leafCountChildren, notNodeCountChildren,
        calculateConditionComplexity_closed c depth, complexityChildren_closed cs depth]
      ring

end

/-! ## Claims -/

/-- C1: for every context and dot-path field absent from the context
(including missing intermediate keys, where `_.get` yields `undefined`),
`parseCondition` does not throw: `is_empty` evaluates to `true` and
`equals` against any non-`undefined` value evaluates to `false`. -/
theorem claim1_absent_field_semantics (context : JSValue) (field : String)
    (hf : field ≠ "") (habsent : getFieldValue field context = .undef) :
    (∀ v : JSValue, evalCond (.leaf field "is_empty" v) context = .ok true) ∧
    (∀ w : JSValue, w ≠ .undef → evalCond (.leaf field "equals" w) context = .ok false) := by
  constructor
  · intro v
    simp [evalCond, evalLeaf, hf, operators, habsent, jsIsEmpty, jsTruthy, jsStrictEq]
  · intro w hw
    cases w <;> simp [evalCond, evalLeaf, hf, operators, habsent, jsStrictEq]
    simp at hw

/-- C1 witness: the context `{a: 1}` is missing the whole `b.c.d` chain;
`is_empty` holds and `equals 5` is false there. -/
theorem claim1_witness :
    evalCond (.leaf "b.c.d" "is_empty" .null) (.obj [("a", .num 1)]) = .ok true ∧
    evalCond (.leaf "b.c.d" "equals" (.num 5)) (.obj [("a", .num 1)]) = .ok false :=
  ⟨(claim1_absent_field_semantics (.obj [("a", .num 1)]) "b.c.d" (by decide) rfl).1 .null,
   (claim1_absent_field_semantics (.obj [("a", .num 1)]) "b.c.d" (by decide) rfl).2
     (.num 5) (fun h => nomatch h)⟩

/-- C5: `and` over an empty child list evaluates to `true`, `or` over an
empty child list evaluates to `false`, and `not` yields the boolean
negation of its child's evaluation (errors propagating unchanged). -/
theorem claim5_vacuous_and_or_not :
    (∀ context : JSValue,
        evalCond (.and []) context = .ok true ∧ evalCond (.or []) context = .ok false) ∧
    (∀ (c : Condition) (context : JSValue),
        evalCond (.not c) context = (evalCond c context).map (fun b => !b)) := by
  refine ⟨fun context => ⟨rfl, rfl⟩, fun c context => ?_⟩
  cases h : evalCond c context <;> simp [evalCond, h, Except.map]

/-- Unfolding lemma for one driver step. -/
theorem runFailing_succ (config : MonitorConfig) (fuel : ℕ) (t : TxnState)
    (rest : List TxnState) :
    runFailing config (fuel + 1) (t :: rest) =
      (failingAttempt config t).2 ::
        runFailing config fuel
          (match (failingAttempt config t).2.requeueDelay with
           | some _ => retryRequeue (failingAttempt config t).1 rest
           | none => rest) := rfl

/-- The driver stops on an empty queue. -/
theorem runFailing_nil (config : MonitorConfig) (fuel : ℕ) :
    runFailing config fuel [] = [] := by
  cases fuel <;> rfl

/-- C2: with `maxRetries = 3`, a transaction whose evaluation always
throws runs exactly three `pending → processing → failed` cycles: the
first two failures schedule a queue-head re-insertion after
`retryDelay * 1` and `retryDelay * 2` and flip the status back to
`pending`; the third leaves the terminal `failed` status and emits the
failure event, and no fourth attempt happens no matter how much fuel the
driver is given. -/
theorem claim2_retry_trace (retryDelay fuel : ℕ) :
    runFailing { maxRetries := 3, retryDelay := retryDelay } (fuel + 3)
        [{ status := "pending", retryCount := 0 }] =
      [{ statuses := ["processing", "failed", "pending"],
         requeueDelay := some (retryDelay * 1), failureEmitted := false },
       { statuses := ["processing", "failed", "pending"],
         requeueDelay := some (retryDelay * 2), failureEmitted := false },
       { statuses := ["processing", "failed"],
         requeueDelay := none, failureEmitted := true }] := by
  rw [runFailing_succ]
  norm_num [failingAttempt, handleTransactionError, retryRequeue]
  rw [runFailing_succ]
  norm_num [failingAttempt, handleTransactionError, retryRequeue]
  rw [runFailing_succ]
  norm_num [failingAttempt, handleTransactionError, retryRequeue, runFailing_nil]

/-- C9 counterexample: five nested `and` nodes over one leaf.  The
analyzer computes complexity 16 (every node's depth counts) and flags the
rule, while the claim's formula (leaf depth + 1, plus `not` nodes) gives
6, which is not above 10. -/
theorem claim9_counterexample :
    analyzeRuleLogicFlagsComplexity
        { id := .str "r", name := .str "r", enabled := .bool true,
          conditions :=
            some (.and [.and [.and [.and [.and [.leaf "amount" "equals" (.num 1)]]]]]),
          actions := [] } = true ∧
    calculateConditionComplexity
        (.and [.and [.and [.and [.and [.leaf "amount" "equals" (.num 1)]]]]]) 0 = 16 ∧
    claimedComplexity
        (.and [.and [.and [.and [.and [.leaf "amount" "equals" (.num 1)]]]]]) = 6 ∧
    ¬ (10 : ℕ) < 6 := by
  refine ⟨rfl, rfl, rfl, by decide⟩

/-- C9 amended: `analyzeRuleLogic` flags a complexity issue exactly when
the sum over all nodes of their nesting depth, plus one per leaf, plus
one per `not` node, exceeds 10. -/
theorem claim9_complexity_amended (rule : Rule) :
    analyzeRuleLogicFlagsComplexity rule = true ↔
      10 < (match rule.conditions with
            | none => 0
            | some c => depthSumAllNodes c 0 + leafCount c + notNodeCount c) := by
  cases h : rule.conditions with
  | none =>
      simp [analyzeRuleLogicFlagsComplexity, ruleConditionComplexity, h]
  | some c =>
      simp [analyzeRuleLogicFlagsComplexity, ruleConditionComplexity, h,
        calculateConditionComplexity_closed c 0]

/-- C8 counterexample: with the history already at its 1000-entry cap, a
failed validation is appended without any trimming, so the history
exceeds the cap the claim says always holds after an append. -/
theorem claim8_counterexample :
    1000 < (handleValidationError (List.replicate 1000 (.obj [])) (.obj []) "boom").length := by
  rw [handleValidationError, List.length_append, List.length_replicate]
  simp only [List.length_cons, List.length_nil]
  omega

/-- C8 amended: an append through `handleValidationResult` (a completed
validation) always leaves at most 1000 entries, evicting the oldest
first; an append through `handleValidationError` (a failed validation)
never trims, so only there can the cap be exceeded, until the next
completed-validation append trims again. -/
theorem claim8_history_cap_amended (validationHistory : List JSValue)
    (validation result : JSValue) (msg : String) :
    (handleValidationResult validationHistory validation result).length =
        min (validationHistory.length + 1) 1000 ∧
    (validationHistory.length + 1 ≤ 1000 →
        handleValidationResult validationHistory validation result =
          validationHistory ++ [completedEntry validation result]) ∧
    (1000 < validationHistory.length + 1 →
        handleValidationResult validationHistory validation result =
          lastN 1000 (validationHistory ++ [completedEntry validation result])) ∧
    (handleValidationError validationHistory validation msg).length =
        validationHistory.length + 1 := by
  have hlen : (validationHistory ++ [completedEntry validation result]).length =
      validationHistory.length + 1 := by simp
  refine ⟨?_, ?_, ?_, by simp [handleValidationError]⟩
  · rw [handleValidationResult, trimHistory, hlen]
    by_cases h : validationHistory.length + 1 > 1000
    · rw [if_pos h, lastN, List.length_drop, hlen]
      omega
    · rw [if_neg h, hlen]
      omega
  · intro hle
    have h : ¬ validationHistory.length + 1 > 1000 := by omega
    rw [handleValidationResult, trimHistory, hlen, if_neg h]
  · intro hgt
    have h : validationHistory.length + 1 > 1000 := by omega
    rw [handleValidationResult, trimHistory, hlen, if_pos h]

/-- C8 witness: an append on an empty history keeps everything, and the
error-path append grows the history by one. -/
theorem claim8_witness :
    handleValidationResult [] (.obj []) (.obj []) = [completedEntry (.obj []) (.obj [])] ∧
    (handleValidationError [] (.obj []) "boom").length = 1 :=
  ⟨(claim8_history_cap_amended [] (.obj []) (.obj []) "boom").2.1 (by decide),
   (claim8_history_cap_amended [] (.obj []) (.obj []) "boom").2.2.2⟩

/-- C7: the history entries both handlers push keep `passed` inside the
nested `result` object, but `detectAnomalies` reads the top-level
`v.passed`, which is `undefined` on every such entry.  Ten completed
validations that all passed therefore yield `errorRate = 1`, above the
default 5% threshold, and an anomaly fires — although zero entries
record a failed validation and the failed/total rate `0/10` is not above
the threshold. -/
theorem claim7_error_rate_bug :
    detectAnomalies
        (List.replicate 10
          (completedEntry (.obj [("id", .str "v1"), ("status", .str "queued")])
            (.obj [("passed", .bool true), ("score", .num 100)])))
        errorRateThresholdDefault =
      some { type := "high_error_rate", errorRate := 1, threshold := 5 / 100 } ∧
    ((List.replicate 10
          (completedEntry (.obj [("id", .str "v1"), ("status", .str "queued")])
            (.obj [("passed", .bool true), ("score", .num 100)]))).filter
        (fun v => !jsTruthy (objGet "passed" (objGet "result" v)))).length = 0 ∧
    ¬ ((0 : ℚ) / 10 > errorRateThresholdDefault) := by
  refine ⟨?_, by decide, by norm_num [errorRateThresholdDefault]⟩
  have hfilter :
      (List.replicate 10
          (completedEntry (.obj [("id", .str "v1"), ("status", .str "queued")])
            (.obj [("passed", .bool true), ("score", .num 100)]))).filter
        (fun v => !jsTruthy (objGet "passed" v)) =
      List.replicate 10
        (completedEntry (.obj [("id", .str "v1"), ("status", .str "queued")])
          (.obj [("passed", .bool true), ("score", .num 100)])) := rfl
  have hlast :
      lastN 100 (List.replicate 10
        (completedEntry (.obj [("id", .str "v1"), ("status", .str "queued")])
          (.obj [("passed", .bool true), ("score", .num 100)]))) =
      List.replicate 10
        (completedEntry (.obj [("id", .str "v1"), ("status", .str "queued")])
          (.obj [("passed", .bool true), ("score", .num 100)])) := rfl
  rw [detectAnomalies, hlast, hfilter]
  norm_num [errorRateThresholdDefault]

/-- The acceptance predicate of `isValidTransaction` in propositional
form: an object whose `amount` is a non-negative number and which merely
carries `userId` and `type` keys (their values are not inspected). -/
def acceptedTransaction (transaction : JSValue) : Prop :=
  ∃ fs, transaction = JSValue.obj fs ∧
    (∃ a : ℚ, fs.lookup "amount" = some (.num a) ∧ 0 ≤ a) ∧
    (fs.lookup "userId").isSome = true ∧
    (fs.lookup "type").isSome = true

/-- `isValidTransaction` decides exactly `acceptedTransaction`. -/
theorem isValidTransaction_iff (transaction : JSValue) :
    isValidTransaction transaction = true ↔ acceptedTransaction transaction := by
  cases transaction with
  | obj fs =>
      simp only [isValidTransaction, Bool.and_eq_true]
      constructor
      · rintro ⟨⟨⟨ha, hu⟩, ht⟩, hm⟩
        refine ⟨fs, rfl, ?_, hu, ht⟩
        cases h : fs.lookup "amount" with
        | none => rw [h] at hm; exact absurd hm (by simp)
        | some v =>
            cases v <;> rw [h] at hm <;> simp at hm
            exact ⟨_, rfl, hm⟩
      · rintro ⟨fs2, heq, ⟨a, ha, hge⟩, hu, ht⟩
        injection heq with heq2
        subst heq2
        exact ⟨⟨⟨by simp [ha], hu⟩, ht⟩, by simp [ha, hge]⟩
  | undef => simp [isValidTransaction, acceptedTransaction]
  | null => simp [isValidTransaction, acceptedTransaction]
  | bool b => simp [isValidTransaction, acceptedTransaction]
  | num q => simp [isValidTransaction, acceptedTransaction]
  | str s => simp [isValidTransaction, acceptedTransaction]
  | arr xs => simp [isValidTransaction, acceptedTransaction]

/-- C3 counterexample: a document with an empty `userId` and a numeric
`type` — which the claim says must fail synchronously with
`InvalidTransaction` and never be queued — is accepted: `submit` returns
an id and the enhanced transaction is appended to the inbound queue. -/
theorem claim3_counterexample :
    monitorTransaction [] 0 "fresh" "now"
        (.obj [("amount", .num 5), ("userId", .str ""), ("type", .num 42)]) =
      .ok (.str "fresh",
        [.obj [("amount", .num 5), ("userId", .str ""), ("type", .num 42),
               ("id", .str "fresh"), ("timestamp", .str "now"), ("processedAt", .null),
               ("retryCount", .num 0), ("status", .str "pending"),
               ("metadata", .obj [("receivedAt", .str "now"), ("source", .str "ui"),
                                  ("version", .str "1.0")])]], 1) := rfl

/-- C3 amended: `monitorTransaction` succeeds (returning the enhanced
transaction's id and appending it to the inbound queue) exactly when the
document is an object with a non-negative numeric `amount` and with
`userId` and `type` keys merely present; otherwise it throws
`Invalid transaction data provided` synchronously with the queue
untouched.  The values of `userId` and `type` are not validated. -/
theorem claim3_validation_amended (transactionQueue : List JSValue) (total : ℕ)
    (freshId nowIso : String) (transactionData : JSValue) :
    ((∃ r, monitorTransaction transactionQueue total freshId nowIso transactionData = .ok r) ↔
        acceptedTransaction transactionData) ∧
    (¬ acceptedTransaction transactionData →
        monitorTransaction transactionQueue total freshId nowIso transactionData =
          .error "Invalid transaction data provided") ∧
    (acceptedTransaction transactionData →
        monitorTransaction transactionQueue total freshId nowIso transactionData =
          .ok (objGet "id" (enhanceTransaction freshId nowIso transactionData),
               transactionQueue ++ [enhanceTransaction freshId nowIso transactionData],
               total + 1)) := by
  by_cases hv : isValidTransaction transactionData
  · have ha := (isValidTransaction_iff transactionData).mp hv
    exact ⟨⟨fun _ => ha,
            fun _ => ⟨(objGet "id" (enhanceTransaction freshId nowIso transactionData),
                       transactionQueue ++ [enhanceTransaction freshId nowIso transactionData],
                       total + 1), by simp [monitorTransaction, hv]⟩⟩,
           fun hna => absurd ha hna, fun _ => by simp [monitorTransaction, hv]⟩
  · have hna : ¬ acceptedTransaction transactionData := fun h =>
      hv ((isValidTransaction_iff transactionData).mpr h)
    refine ⟨⟨fun hex => ?_, fun h => absurd h hna⟩,
            fun _ => by simp [monitorTransaction, hv], fun h => absurd h hna⟩
    obtain ⟨r, hr⟩ := hex
    rw [monitorTransaction, if_neg hv] at hr
    exact absurd hr (by simp)

/-- C3 witness: a well-formed document is accepted and appended. -/
theorem claim3_witness :
    monitorTransaction [] 0 "f1" "t1"
        (.obj [("amount", .num 100), ("userId", .str "u1"), ("type", .str "transfer")]) =
      .ok (objGet "id" (enhanceTransaction "f1" "t1"
             (.obj [("amount", .num 100), ("userId", .str "u1"), ("type", .str "transfer")])),
           [] ++ [enhanceTransaction "f1" "t1"
             (.obj [("amount", .num 100), ("userId", .str "u1"), ("type", .str "transfer")])],
           0 + 1) :=
  (claim3_validation_amended [] 0 "f1" "t1"
      (.obj [("amount", .num 100), ("userId", .str "u1"), ("type", .str "transfer")])).2.2
    ⟨_, rfl, ⟨100, rfl, by norm_num⟩, rfl, rfl⟩

/-- C6: a thrown condition evaluation is caught by `evaluateRule` and
reported as an untriggered result carrying the message with no actions;
when the conditions pass, the actions run through `executeActions`, which
records each action's own success or caught failure — one action per
entry, siblings unaffected. -/
theorem claim6_error_isolation :
    (∀ (rule : Rule) (transactionData : JSValue) (c : Condition) (e : String),
        rule.conditions = some c → evalCond c transactionData = .error e →
        evaluateRule rule transactionData =
          { ruleId := rule.id, ruleName := rule.name, result := false, actions := [],
            error := some e, transactionId := objGet "id" transactionData }) ∧
    (∀ (rule : Rule) (transactionData : JSValue) (c : Condition),
        rule.conditions = some c → evalCond c transactionData = .ok true →
        evaluateRule rule transactionData =
          { ruleId := rule.id, ruleName := rule.name, result := true,
            actions := executeActions rule.actions transactionData,
            error := none, transactionId := objGet "id" transactionData }) ∧
    (∀ (actions : List Action) (transactionData : JSValue),
        executeActions actions transactionData =
          actions.map (fun a => executedEntry a (executeAction a transactionData))) := by
  refine ⟨fun rule tx c e h1 h2 => ?_, fun rule tx c h1 h2 => ?_, fun actions tx => ?_⟩
  · simp [evaluateRule, h1, h2]
  · simp [evaluateRule, h1, h2]
  · induction actions with
    | nil => rfl
    | cons a rest ih => simp [executeActions, ih]

/-- C6 witness: an unsupported operator makes the condition throw and the
rule reports the error without triggering; a bad action type is recorded
as that action's failure while its sibling flag action still runs. -/
theorem claim6_witness :
    evaluateRule
        { id := .str "r1", name := .str "Rule 1", enabled := .bool true,
          conditions := some (.leaf "x" "frobnicate" .null),
          actions := [{ type := "flag_transaction", config := .obj [("reason", .str "hi")] }] }
        (.obj [("id", .str "t1")]) =
      { ruleId := .str "r1", ruleName := .str "Rule 1", result := false, actions := [],
        error := some "Unsupported operator: frobnicate", transactionId := .str "t1" } ∧
    executeActions
        [{ type := "bad_type", config := .null },
         { type := "flag_transaction", config := .obj [("reason", .str "hi")] }]
        (.obj []) =
      [{ type := "bad_type", config := .null, result := none, success := false,
         error := some "Unknown action type: bad_type" },
       { type := "flag_transaction", config := .obj [("reason", .str "hi")],
         result := some (.flagged (.str "hi")), success := true, error := none }] :=
  ⟨claim6_error_isolation.1 _ _ (.leaf "x" "frobnicate" .null)
      "Unsupported operator: frobnicate" rfl rfl,
   claim6_error_isolation.2.2 _ _⟩

/-- The flat list of scores the summary averages: for every triggered
rule, the scores of its successful `calculate_score` actions, in order.
The spec-side view of the accumulator loops of
`calculateOverallRiskScore`. -/
def flatTriggeredScores (results : List RuleResult) : List ℚ :=
  ((results.filter (fun r => r.result)).map
    (fun r => (r.actions.filter isScoreAction).map scoreOf)).flatten

/-- `jsRound` agrees with the mathematical floor of `q + 1/2`. -/
theorem jsRound_eq (q : ℚ) : jsRound q = ⌊q + 1 / 2⌋ :=
  le_antisymm (Int.le_floor.mpr (Rat.le_floor.mp le_rfl))
    (Rat.le_floor.mpr (Int.le_floor.mp le_rfl))

/-- The inner accumulator loop of `calculateOverallRiskScore` in closed
form. -/
theorem scoreFold_inner (l : List ExecutedAction) (p : ℚ × ℕ) :
    l.foldl (fun (q : ℚ × ℕ) action => (q.1 + scoreOf action, q.2 + 1)) p =
      (p.1 + (l.map scoreOf).sum, p.2 + l.length) := by
  induction l generalizing p with
  | nil => simp
  | cons a rest ih =>
      rw [List.foldl_cons, ih]
      simp only [List.map_cons, List.sum_cons, List.length_cons, Prod.mk.injEq]
      constructor
      · ring
      · omega

/-- The outer accumulator loop of `calculateOverallRiskScore` in closed
form. -/
theorem scoreFold_outer (rules : List RuleResult) (p : ℚ × ℕ) :
    rules.foldl
        (fun (p : ℚ × ℕ) rule =>
          (rule.actions.filter isScoreAction).foldl
            (fun (q : ℚ × ℕ) action => (q.1 + scoreOf action, q.2 + 1)) p) p =
      (p.1 + ((rules.map (fun r => (r.actions.filter isScoreAction).map scoreOf)).flatten).sum,
       p.2 + ((rules.map (fun r => (r.actions.filter isScoreAction).map scoreOf)).flatten).length) := by
  induction rules generalizing p with
  | nil => simp
  | cons r rest ih =>
      rw [List.foldl_cons, scoreFold_inner, ih]
      simp only [List.map_cons, List.flatten_cons, List.sum_append, List.length_append,
        List.length_map, Prod.mk.injEq]
      constructor
      · ring
      · omega

/-- C4 counterexample: one triggered rule with two successful
`calculate_score` actions scoring 1 and 2.  The mean is `3/2`, but the
summary's `riskScore` is `Math.round(3/2) = 2`: the code reports the
rounded mean, not the mean. -/
theorem claim4_counterexample :
    ((createResultSummary
        { transactionId := .null, totalRules := 1, passedRules := 1, failedRules := 0,
          errors := 0,
          results := [{ ruleId := .str "r", ruleName := .str "r", result := true,
                        actions := [{ type := "calculate_score", config := .null,
                                      result := some (.score (some 1) .undef),
                                      success := true, error := none },
                                    { type := "calculate_score", config := .null,
                                      result := some (.score (some 2) .undef),
                                      success := true, error := none }],
                        error := none, transactionId := .null }] }).riskScore : ℚ) = 2 ∧
    (flatTriggeredScores
        [{ ruleId := .str "r", ruleName := .str "r", result := true,
           actions := [{ type := "calculate_score", config := .null,
                         result := some (.score (some 1) .undef),
                         success := true, error := none },
                       { type := "calculate_score", config := .null,
                         result := some (.score (some 2) .undef),
                         success := true, error := none }],
           error := none, transactionId := .null }]).sum /
      ((flatTriggeredScores
        [{ ruleId := .str "r", ruleName := .str "r", result := true,
           actions := [{ type := "calculate_score", config := .null,
                         result := some (.score (some 1) .undef),
                         success := true, error := none },
                       { type := "calculate_score", config := .null,
                         result := some (.score (some 2) .undef),
                         success := true, error := none }],
           error := none, transactionId := .null }]).length : ℚ) = 3 / 2 ∧
    ((2 : ℚ) ≠ 3 / 2) := by
  refine ⟨?_, by norm_num [flatTriggeredScores, isScoreAction, scoreOf], by norm_num⟩
  have h : (createResultSummary
      { transactionId := .null, totalRules := 1, passedRules := 1, failedRules := 0,
        errors := 0,
        results := [{ ruleId := .str "r", ruleName := .str "r", result := true,
                      actions := [{ type := "calculate_score", config := .null,
                                    result := some (.score (some 1) .undef),
                                    success := true, error := none },
                                  { type := "calculate_score", config := .null,
                                    result := some (.score (some 2) .undef),
                                    success := true, error := none }],
                      error := none, transactionId := .null }] }).riskScore =
      jsRound ((1 + 2) / 2 : ℚ) := by
    norm_num [createResultSummary, calculateOverallRiskScore, isScoreAction, scoreOf]
  rw [h, jsRound_eq]
  norm_num

/-- C4 amended: `summary.riskScore` is the rounded mean
(`Math.round`, half up) of the successful `calculate_score` action
scores across triggered rules, `0` when there are none; and
`summary.recommendation` follows the fixed precedence — any triggered
rule with a successful `flag_transaction` action gives
`REVIEW_REQUIRED`; else more than 2 triggered rules give
`MONITOR_CLOSELY`; else at least one triggered rule gives
`NORMAL_MONITORING`; else `APPROVED`. -/
theorem claim4_summary_amended (ruleResults : Report) :
    ((createResultSummary ruleResults).riskScore =
      if (flatTriggeredScores ruleResults.results).length = 0 then 0
      else jsRound ((flatTriggeredScores ruleResults.results).sum /
                    ((flatTriggeredScores ruleResults.results).length : ℚ))) ∧
    ((createResultSummary ruleResults).recommendation = "REVIEW_REQUIRED" ↔
      ∃ r ∈ ruleResults.results, r.result = true ∧
        ∃ a ∈ r.actions, a.type = "flag_transaction" ∧ a.success = true) ∧
    ((createResultSummary ruleResults).recommendation = "MONITOR_CLOSELY" ↔
      ¬(∃ r ∈ ruleResults.results, r.result = true ∧
          ∃ a ∈ r.actions, a.type = "flag_transaction" ∧ a.success = true) ∧
        2 < (ruleResults.results.filter (fun r => r.result)).length) ∧
    ((createResultSummary ruleResults).recommendation = "NORMAL_MONITORING" ↔
      ¬(∃ r ∈ ruleResults.results, r.result = true ∧
          ∃ a ∈ r.actions, a.type = "flag_transaction" ∧ a.success = true) ∧
        0 < (ruleResults.results.filter (fun r => r.result)).length ∧
        (ruleResults.results.filter (fun r => r.result)).length ≤ 2) ∧
    ((createResultSummary ruleResults).recommendation = "APPROVED" ↔
      ¬(∃ r ∈ ruleResults.results, r.result = true ∧
          ∃ a ∈ r.actions, a.type = "flag_transaction" ∧ a.success = true) ∧
        (ruleResults.results.filter (fun r => r.result)).length = 0) := by
  have key :
      0 < ((ruleResults.results.filter (fun r => r.result)).filter hasFlagAction).length ↔
        ∃ r ∈ ruleResults.results, r.result = true ∧
          ∃ a ∈ r.actions, a.type = "flag_transaction" ∧ a.success = true := by
    rw [← List.countP_eq_length_filter, List.countP_pos_iff]
    constructor
    · rintro ⟨r, hr, hflag⟩
      obtain ⟨hrmem, hres⟩ := List.mem_filter.mp hr
      obtain ⟨a, hamem, ha⟩ := List.any_eq_true.mp hflag
      simp only [Bool.and_eq_true, beq_iff_eq] at ha
      exact ⟨r, hrmem, hres, a, hamem, ha.1, ha.2⟩
    · rintro ⟨r, hrmem, hres, a, hamem, hty, hsu⟩
      refine ⟨r, List.mem_filter.mpr ⟨hrmem, hres⟩, ?_⟩
      exact List.any_eq_true.mpr ⟨a, hamem, by simp [hty, hsu]⟩
  have hscore : (createResultSummary ruleResults).riskScore =
      if (flatTriggeredScores ruleResults.results).length = 0 then 0
      else jsRound ((flatTriggeredScores ruleResults.results).sum /
                    ((flatTriggeredScores ruleResults.results).length : ℚ)) := by
    show calculateOverallRiskScore (ruleResults.results.filter (fun r => r.result)) = _
    rw [calculateOverallRiskScore]
    by_cases hT : (ruleResults.results.filter (fun r => r.result)).length = 0
    · rw [if_pos hT]
      have hnil : ruleResults.results.filter (fun r => r.result) = [] :=
        List.length_eq_zero.mp hT
      rw [show flatTriggeredScores ruleResults.results =
            ((ruleResults.results.filter (fun r => r.result)).map
              (fun r => (r.actions.filter isScoreAction).map scoreOf)).flatten from rfl, hnil]
      simp
    · rw [if_neg hT, scoreFold_outer]
      simp only [zero_add]
      rw [show ((ruleResults.results.filter (fun r => r.result)).map
            (fun r => (r.actions.filter isScoreAction).map scoreOf)).flatten =
            flatTriggeredScores ruleResults.results from rfl]
      by_cases hc : (flatTriggeredScores ruleResults.results).length = 0
      · rw [if_neg (by omega), if_pos hc]
      · rw [if_pos (by omega), if_neg hc]
  have hrec : (createResultSummary ruleResults).recommendation =
      generateRecommendation (ruleResults.results.filter (fun r => r.result))
        ((ruleResults.results.filter (fun r => r.result)).filter hasFlagAction) := rfl
  refine ⟨hscore, ?_, ?_, ?_, ?_⟩ <;> rw [hrec, generateRecommendation] <;>
    by_cases hF :
      0 < ((ruleResults.results.filter (fun r => r.result)).filter hasFlagAction).length
  all_goals
    first
    | (rw [if_pos hF]
       first
       | exact iff_of_true rfl (key.mp hF)
       |exact iff_of_false (by decide) (fun h => h.1 (key.mp hF)))
    | (rw [if_neg hF]
       have hnex := (key.not).mp hF
       by_cases h2 : 2 < (ruleResults.results.filter (fun r => r.result)).length
       · rw [if_pos h2]
         first
         | exact iff_of_false (by decide) hnex
         | exact iff_of_true rfl ⟨hnex, h2⟩
         | exact iff_of_false (by decide) (fun h => by omega)
       · rw [if_neg h2]
         by_cases h0 : 0 < (ruleResults.results.filter (fun r => r.result)).length
         · rw [if_pos h0]
           first
           | exact iff_of_false (by decide) hnex
           | exact iff_of_false (by decide) (fun h => h2 h.2)
           | exact iff_of_true rfl ⟨hnex, h0, by omega⟩
           | exact iff_of_false (by decide) (fun h => by omega)
         · rw [if_neg h0]
           first
           | exact iff_of_false (by decide) hnex
           | exact iff_of_false (by decide) (fun h => h2 h.2)
           | exact iff_of_false (by decide) (fun h => h0 h.2.1)
           | exact iff_of_true rfl ⟨hnex, by omega⟩)

/-- Characters before the first opening brace pass through the
interpolation scan verbatim. -/
theorem interpGo_pre (data : JSValue) (pre rest : List Char) (h : '{' ∉ pre) :
    interpGo data (pre ++ rest) none = pre ++ interpGo data rest none := by
  induction pre with
  | nil => rfl
  | cons c cs ih =>
      have hc : ¬ c = '{' := fun e => h (by simp [e])
      have hcs : '{' ∉ cs := fun m => h (List.mem_cons_of_mem _ m)
      simp only [List.cons_append, interpGo, if_neg hc]
      exact congrArg (fun l => c :: l) (ih hcs)

/-- Field characters (no closing brace among them) are buffered by the
interpolation scan. -/
theorem interpGo_buf (data : JSValue) (fld suf buf : List Char) (h : '}' ∉ fld) :
    interpGo data (fld ++ '}' :: suf) (some buf) =
      interpGo data ('}' :: suf) (some (fld.reverse ++ buf)) := by
  induction fld generalizing buf with
  | nil => simp
  | cons c cs ih =>
      have hc : ¬ c = '}' := fun e => h (by simp [e])
      have hcs : '}' ∉ cs := fun m => h (List.mem_cons_of_mem _ m)
      have step : interpGo data ((c :: cs) ++ '}' :: suf) (some buf) =
          interpGo data (cs ++ '}' :: suf) (some (c :: buf)) := by
        rw [List.cons_append]
        conv_lhs => rw [interpGo]
        rw [if_neg hc]
      rw [step, ih (c :: buf) hcs]
      congr 1
      simp [List.reverse_cons, List.append_assoc]

/-- C10 counterexample: the placeholder path `amount` resolves — to the
value `0` — yet the code leaves the placeholder verbatim, because the
callback's `value || match` treats every falsy value like a failed
lookup.  The claim says the placeholder is replaced by the field value
(so the message would be `0`). -/
theorem claim10_counterexample :
    interpolateMessage "{amount}" (.obj [("amount", .num 0)]) = "{amount}" ∧
    getFieldValue "amount" (.obj [("amount", .num 0)]) = .num 0 ∧
    ("{amount}" : String) ≠ "0" :=
  ⟨by decide, rfl, by decide⟩

/-- C10 amended: `send_notification` returns the sent marker with the
configured recipient and the interpolated template; interpolation
replaces each `placeholder` whose field value is truthy by that value's
string form and leaves the placeholder verbatim otherwise — so
unresolved paths stay verbatim as claimed, but so does every falsy
resolved value (`0`, `""`, `false`, `null`). -/
theorem claim10_interpolation_amended :
    (∀ (cf : List (String × JSValue)) (transactionData : JSValue) (template : String),
        cf.lookup "message" = some (.str template) →
        executeAction { type := "send_notification", config := .obj cf } transactionData =
          .ok (.notification ((cf.lookup "recipient").getD .undef)
                (interpolateMessage template transactionData))) ∧
    (∀ (data : JSValue) (pre fld suf : List Char),
        '{' ∉ pre → fld ≠ [] → '}' ∉ fld →
        interpolateMessage (String.mk (pre ++ '{' :: (fld ++ '}' :: suf))) data =
          String.mk (pre ++
            (if jsTruthy (getFieldValue (String.mk fld) data) then
               (jsToString (getFieldValue (String.mk fld) data)).data
             else '{' :: (fld ++ ['}'])) ++
            (interpolateMessage (String.mk suf) data).data)) := by
  constructor
  · intro cf transactionData template hmsg
    simp [executeAction, jsGetProp, objGet, hmsg, Except.bind, Except.pure, Bind.bind, Pure.pure]
  · intro data pre fld suf hpre hfld hbrace
    show String.mk (interpGo data (pre ++ '{' :: (fld ++ '}' :: suf)) none) = _
    rw [interpGo_pre data pre _ hpre,
      show interpGo data ('{' :: (fld ++ '}' :: suf)) none =
        interpGo data (fld ++ '}' :: suf) (some []) from by simp [interpGo],
      interpGo_buf data fld suf [] hbrace]
    cases fld with
    | nil => exact absurd rfl hfld
    | cons f fs =>
        have step : interpGo data ('}' :: suf) (some ((f :: fs).reverse ++ [])) =
            (if jsTruthy (getFieldValue (String.mk (f :: fs)) data) then
               (jsToString (getFieldValue (String.mk (f :: fs)) data)).data
             else '{' :: ((f :: fs) ++ ['}'])) ++ interpGo data suf none := by
          conv_lhs => rw [interpGo]
          simp [List.reverse_reverse]
        rw [step]
        simp [interpolateMessage, List.append_assoc]

/-- C10 witness: a literal template passes through, and a placeholder
with a truthy dot-path value is replaced by that value. -/
theorem claim10_witness :
    executeAction
        { type := "send_notification",
          config := .obj [("recipient", .str "ops"), ("message", .str "Hi")] }
        (.obj []) =
      .ok (.notification (.str "ops") "Hi") ∧
    interpolateMessage
        (String.mk ("Hello ".data ++ '{' :: ("user.name".data ++ '}' :: "!".data)))
        (.obj [("user", .obj [("name", .str "Bob")])]) = "Hello Bob!" :=
  ⟨claim10_interpolation_amended.1 _ _ "Hi" rfl,
   (claim10_interpolation_amended.2 _ "Hello ".data "user.name".data "!".data
      (by decide) (by decide) (by decide)).trans (by decide)⟩

end Vibe
